import Mathlib

/-! Shallow embedding of `src/useDragSelection.js` (react-drag-selector).

The hook's reactive state is modelled as an explicit record `HookState`;
each event handler of the source becomes a pure function on that record.
Coordinates are integers (the claims only involve integer arithmetic).
JavaScript property access on an absent (`undefined`) margin throws a
`TypeError`; handlers are therefore `Except JsError`-valued.  The React
effect on `[dragStart, dragEnd]` (the selection reconciler, source lines
65-85) is modelled by `reconcile`, run by `step` exactly when the handler
replaced one of its two dependencies (a `setDragStart`/`setDragEnd` call
with a fresh object always re-triggers the effect; React compares
dependencies with `Object.is`, so a `null → null` write does not).
-/

/-- A pointer coordinate, source `{x, y}`. -/
structure Point where
  x : Int
  y : Int
deriving DecidableEq, Repr

/-- A rectangle `{left, top, width, height}`. -/
structure Rect where
  left : Int
  top : Int
  width : Int
  height : Int
deriving DecidableEq, Repr

/-- The target's allowed region, source `getTargetMargin` result
`{top, left, bottom, right}` in document coordinates. -/
structure Margin where
  top : Int
  left : Int
  bottom : Int
  right : Int
deriving DecidableEq, Repr

/-- The four booleans returned by source `isWithinTarget` (lines 166-173). -/
structure WithinFlags where
  left : Bool
  top : Bool
  right : Bool
  bottom : Bool
deriving DecidableEq, Repr

/-- The only JavaScript failure mode reachable in the embedded code:
reading a property of `undefined`. -/
inductive JsError where
  | typeError
deriving DecidableEq, Repr

deriving instance DecidableEq for Except

/-- Source `isWithinTarget(pageX, pageY, margin)` (lines 166-173). -/
def isWithinTarget (pageX pageY : Int) (margin : Margin) : WithinFlags :=
  { left := decide (pageX - margin.left ≥ 0)
    top := decide (pageY - margin.top ≥ 0)
    right := decide (margin.right - pageX ≥ 0)
    bottom := decide (margin.bottom - pageY ≥ 0) }

/-- Source `onMouseDown`'s `isValidStart` (lines 151-153):
`Object.values(isWithinTarget(...)).every(point => point === true)`. -/
def isValidStart (p : Point) (margin : Margin) : Bool :=
  (isWithinTarget p.x p.y margin).left && (isWithinTarget p.x p.y margin).top &&
    (isWithinTarget p.x p.y margin).right && (isWithinTarget p.x p.y margin).bottom

/-- Source `calculateSelectionBox(start, end)` (lines 98-103).  The source
computes `left`/`top` from the hook state `dragStart`/`dragEnd` captured by
the closure and `width`/`height` from the parameters `start`/`end`; the
closure values are made explicit as the first two arguments (the sole call
site, line 67, passes `dragStart, dragEnd` for the parameters as well). -/
def calculateSelectionBox (dragStartC dragEndC start endP : Point) : Rect :=
  { left := min dragStartC.x dragEndC.x
    top := min dragStartC.y dragEndC.y
    width := |start.x - endP.x|
    height := |start.y - endP.y| }

/-- Source `boxesIntersect(boxA, boxB)` (lines 105-109). -/
def boxesIntersect (boxA boxB : Rect) : Bool :=
  decide (boxA.left ≤ boxB.left + boxB.width ∧ boxA.left + boxA.width ≥ boxB.left ∧
    boxA.top ≤ boxB.top + boxB.height ∧ boxA.top + boxA.height ≥ boxB.top)

/-- Membership of a point in the closed extent of a rectangle — the spec's
notion of two rectangles "touching" is sharing such a point. -/
def inClosedRect (r : Rect) (x y : Int) : Prop :=
  r.left ≤ x ∧ x ≤ r.left + r.width ∧ r.top ≤ y ∧ y ≤ r.top + r.height

instance (r : Rect) (x y : Int) : Decidable (inClosedRect r x y) := by
  unfold inClosedRect; infer_instance

/-- JavaScript `a || b` on an optionally-absent number `a` (source line
123-124, `dragEnd?.x || evt.clientX`): yields `b` when `a` is absent
(`undefined`) or falsy (`0`). -/
def jsOrFalsy (a : Option Int) (b : Int) : Int :=
  match a with
  | none => b
  | some v => if v = 0 then b else v

/-- Tracked items.  An item is an opaque DOM handle; it is modelled by a
numeric identity, `none` standing for a null/undefined handle (rejected by
`addItem`'s `!item` guard, skipped by the reconciler's `!item` guard). -/
abbrev Item := Nat

/-- Source `addItem` (lines 59-63), acting on the `items` state:
`if (!item || items.includes(item)) return; setItems(items => [...items, item])`.
(The `observer.observe(item)` call is an external side effect with no
bearing on the hook's state.) -/
def addItem (items : List (Option Item)) (item : Option Item) : List (Option Item) :=
  match item with
  | none => items
  | some _ => if item ∈ items then items else items ++ [item]

/-- The hook's reactive state (source lines 34-48). -/
structure HookState where
  dragStart : Option Point
  dragEnd : Option Point
  isMouseDown : Bool
  selectionBox : Option Rect
  showSelection : Bool
  selectedIndex : Finset Nat
  items : List (Option Item)
deriving DecidableEq

/-- Initial state (the `useState` initialisers, lines 34-48). -/
def initState : HookState :=
  { dragStart := none, dragEnd := none, isMouseDown := false, selectionBox := none
    showSelection := false, selectedIndex := ∅, items := [] }

/-- The environment a handler reads: the target margin computed by
`getTargetMargin` (absent when `targetRef.current` is null, lines 87-96)
and each item's live bounding box (`item.getBoundingClientRect()`). -/
structure Env where
  margin : Option Margin
  boxes : Item → Rect

/-- The state updates of source `onMouseUp` (lines 140-147):
`setShowSelection(false); setSelectionBox(null); setIsMouseDown(false);
resetSelection()` where `resetSelection` (lines 175-179) clears
`dragStart`, `dragEnd` and `selectedIndex`. -/
def upFields (s : HookState) : HookState :=
  { s with
    showSelection := false
    selectionBox := none
    isMouseDown := false
    dragStart := none
    dragEnd := none
    selectedIndex := ∅ }

/-- Whether `onMouseUp`'s writes change the effect dependencies
`[dragStart, dragEnd]`: it writes `null` to both, which `Object.is` sees
as a change exactly when the previous value was non-null. -/
def upChanged (s : HookState) : Bool :=
  s.dragStart.isSome || s.dragEnd.isSome

/-- Pointer events delivered to the hook, plus item registration. -/
inductive Event where
  | down (p : Point)
  | move (p : Point) (buttons : Nat)
  | up
  | add (item : Option Item)

/-- The event handlers of the source as one pure function.  Returns the
updated state together with a flag telling whether the handler replaced
`dragStart` or `dragEnd` (i.e. whether the reconciler effect re-runs).
`.error .typeError` models the JavaScript `TypeError` thrown by
`isWithinTarget` when `margin` is `undefined` (lines 168-171); it is
raised before any state write, so the state is unchanged on error. -/
def handle (env : Env) (e : Event) (s : HookState) : Except JsError (HookState × Bool) :=
  match e with
  | .down p =>
    -- onMouseDown, lines 149-164 (evt.pageX/pageY = p.x/p.y)
    match env.margin with
    | none => .error .typeError
    | some m =>
      if isValidStart p m then
        .ok ({ s with
          dragStart := some p
          dragEnd := none
          selectedIndex := ∅
          showSelection := true
          isMouseDown := true }, true)
      else
        .ok (s, false)
  | .move p buttons =>
    -- onMouseMove, lines 111-138 (evt.clientX/clientY = p.x/p.y)
    if s.isMouseDown = false then .ok (s, false)
    else if buttons = 0 then .ok (upFields s, upChanged s)
    else
      match env.margin with
      | none => .error .typeError
      | some m =>
        let flags := isWithinTarget p.x p.y m
        let tempX := jsOrFalsy (s.dragEnd.map Point.x) p.x
        let tempY := jsOrFalsy (s.dragEnd.map Point.y) p.y
        let tempY2 := if flags.top && flags.bottom then p.y else tempY
        let tempX2 := if flags.left && flags.right then p.x else tempX
        .ok ({ s with dragEnd := some ⟨tempX2, tempY2⟩ }, true)
  | .up => .ok (upFields s, upChanged s)
  | .add item => .ok ({ s with items := addItem s.items item }, false)

/-- The body of the reconciler's `items.forEach((item, _i) => ...)`
(source lines 70-80), with the running index made explicit.  `old` is the
`selectedIndex` state consulted by the branch conditions; `acc` is the
mutable copy `newIndexes`. -/
def reconcileStep (selBox : Rect) (boxes : Item → Rect) (old : Finset Nat) (i : Nat)
    (item : Option Item) (acc : Finset Nat) : Finset Nat :=
  match item with
  | none => acc
  | some it =>
    if boxesIntersect selBox (boxes it) = true ∧ i ∉ old then insert i acc
    else if boxesIntersect selBox (boxes it) = false ∧ i ∈ old then acc.erase i
    else acc

/-- The reconciler's `items.forEach` (lines 70-80) as a loop over the item
list with the running index made explicit. -/
def reconcileLoop (selBox : Rect) (boxes : Item → Rect) (old : Finset Nat) :
    Nat → List (Option Item) → Finset Nat → Finset Nat
  | _, [], acc => acc
  | i, item :: rest, acc =>
    reconcileLoop selBox boxes old (i + 1) rest (reconcileStep selBox boxes old i item acc)

/-- The reconciler effect (source lines 65-85): when both `dragStart` and
`dragEnd` are present, recompute the selection box, diff the items against
it, store the new index set and box, and emit `onSelectionChange` with the
new set (the second component; `none` = no notification). -/
def reconcile (boxes : Item → Rect) (s : HookState) : HookState × Option (Finset Nat) :=
  match s.dragStart, s.dragEnd with
  | some ds, some de =>
    let selBox := calculateSelectionBox ds de ds de
    let newIndexes := reconcileLoop selBox boxes s.selectedIndex 0 s.items s.selectedIndex
    ({ s with selectedIndex := newIndexes, selectionBox := some selBox }, some newIndexes)
  | _, _ => (s, none)

/-- One full reactive step: run the event handler, then the reconciler
effect when a dependency changed. -/
def step (env : Env) (e : Event) (s : HookState) :
    Except JsError (HookState × Option (Finset Nat)) :=
  match handle env e s with
  | .error err => .error err
  | .ok (s1, changed) => if changed then .ok (reconcile env.boxes s1) else .ok (s1, none)

/-- States reachable from the initial render by any sequence of events
(error outcomes leave the state unchanged, so they produce no new state). -/
inductive Reachable : HookState → Prop where
  | init : Reachable initState
  | step : ∀ (env : Env) (e : Event) (s s' : HookState) (out : Option (Finset Nat)),
      Reachable s → step env e s = .ok (s', out) → Reachable s'

/-! Basic lemmas about the reconciler. -/

lemma reconcile_preserves (boxes : Item → Rect) (s : HookState) :
    (reconcile boxes s).1.isMouseDown = s.isMouseDown ∧
    (reconcile boxes s).1.items = s.items ∧
    (reconcile boxes s).1.dragStart = s.dragStart ∧
    (reconcile boxes s).1.dragEnd = s.dragEnd ∧
    (reconcile boxes s).1.showSelection = s.showSelection := by
  unfold reconcile
  split <;> exact ⟨rfl, rfl, rfl, rfl, rfl⟩

lemma reconcileStep_mem_of_ne {selBox : Rect} {boxes : Item → Rect} {old : Finset Nat}
    {i j : Nat} {item : Option Item} {acc : Finset Nat} (hne : j ≠ i) :
    (j ∈ reconcileStep selBox boxes old i item acc ↔ j ∈ acc) := by
  unfold reconcileStep
  cases item with
  | none => exact Iff.rfl
  | some it =>
    dsimp only
    split
    · simp [Finset.mem_insert, hne]
    · split
      · simp [Finset.mem_erase, hne]
      · exact Iff.rfl

lemma reconcileStep_mem_self {selBox : Rect} {boxes : Item → Rect} {old : Finset Nat}
    {j : Nat} {acc : Finset Nat} (hagree : j ∈ acc ↔ j ∈ old) (it : Item) :
    (j ∈ reconcileStep selBox boxes old j (some it) acc ↔
      boxesIntersect selBox (boxes it) = true) := by
  unfold reconcileStep
  dsimp only
  split
  · rename_i h
    simp [h.1]
  · split
    · rename_i h
      simp [h.1, Finset.mem_erase]
    · rename_i h1 h2
      cases hb : boxesIntersect selBox (boxes it) with
      | true =>
        rw [hb] at h1
        have hold : j ∈ old := by
          by_contra hno
          exact h1 ⟨rfl, hno⟩
        simp [hagree, hold]
      | false =>
        rw [hb] at h2
        have hold : j ∉ old := by
          intro hyes
          exact h2 ⟨rfl, hyes⟩
        simp [hagree, hold]

lemma reconcileLoop_mem_lt (selBox : Rect) (boxes : Item → Rect) (old : Finset Nat) :
    ∀ (l : List (Option Item)) (i : Nat) (acc : Finset Nat) (j : Nat), j < i →
      (j ∈ reconcileLoop selBox boxes old i l acc ↔ j ∈ acc) := by
  intro l
  induction l with
  | nil => intro i acc j _; exact Iff.rfl
  | cons hd tl ih =>
    intro i acc j hj
    rw [reconcileLoop]
    rw [ih (i + 1) _ j (Nat.lt_succ_of_lt hj)]
    exact reconcileStep_mem_of_ne (Nat.ne_of_lt hj)

lemma reconcileLoop_mem (selBox : Rect) (boxes : Item → Rect) (old : Finset Nat) :
    ∀ (l : List (Option Item)) (i : Nat) (acc : Finset Nat) (j : Nat), i ≤ j →
      (j ∈ acc ↔ j ∈ old) →
      (j ∈ reconcileLoop selBox boxes old i l acc ↔
        match l[j - i]? with
        | some (some it) => boxesIntersect selBox (boxes it) = true
        | _ => j ∈ old) := by
  intro l
  induction l with
  | nil =>
    intro i acc j _ hagree
    simp only [reconcileLoop, List.getElem?_nil]
    exact hagree
  | cons hd tl ih =>
    intro i acc j hle hagree
    rw [reconcileLoop]
    rcases Nat.eq_or_lt_of_le hle with heq | hlt
    · subst heq
      rw [Nat.sub_self]
      rw [reconcileLoop_mem_lt selBox boxes old tl (i + 1) _ i (Nat.lt_succ_self i)]
      cases hd with
      | none => simp only [List.getElem?_cons_zero]; exact hagree
      | some it => simp only [List.getElem?_cons_zero]; exact reconcileStep_mem_self hagree it
    · have hnei : j ≠ i := (Nat.ne_of_lt hlt).symm
      have hagree' : (j ∈ reconcileStep selBox boxes old i hd acc ↔ j ∈ old) :=
        (reconcileStep_mem_of_ne hnei).trans hagree
      rw [ih (i + 1) _ j hlt hagree']
      have hidx : j - i = (j - (i + 1)) + 1 := by omega
      rw [hidx, List.getElem?_cons_succ]

lemma reconcile_eq (boxes : Item → Rect) (s : HookState) (ds de : Point)
    (h1 : s.dragStart = some ds) (h2 : s.dragEnd = some de) :
    reconcile boxes s =
      ({ s with
          selectedIndex :=
            reconcileLoop (calculateSelectionBox ds de ds de) boxes s.selectedIndex 0
              s.items s.selectedIndex
          selectionBox := some (calculateSelectionBox ds de ds de) },
        some (reconcileLoop (calculateSelectionBox ds de ds de) boxes s.selectedIndex 0
          s.items s.selectedIndex)) := by
  simp only [reconcile, h1, h2]

/-- C1: while both drag endpoints are defined, the reconciler produces the
new Selected Set from the old one by exactly the minimal diff — an index
of a (non-null) registered item is in the new set iff that item's current
bounding box intersects the drag rectangle, and any other index keeps its
old membership — stores the corresponding selection box, and emits the
`onSelectionChange` notification with the new set unconditionally (the
emitted set is the stored set, with no equality check against the old). -/
theorem c1_reconciler_minimal_diff (boxes : Item → Rect) (s : HookState) (ds de : Point)
    (h1 : s.dragStart = some ds) (h2 : s.dragEnd = some de) :
    (reconcile boxes s).2 = some (reconcile boxes s).1.selectedIndex ∧
    (reconcile boxes s).1.selectionBox = some (calculateSelectionBox ds de ds de) ∧
    (∀ j it, s.items[j]? = some (some it) →
      (j ∈ (reconcile boxes s).1.selectedIndex ↔
        boxesIntersect (calculateSelectionBox ds de ds de) (boxes it) = true)) ∧
    (∀ j, (∀ it, s.items[j]? ≠ some (some it)) →
      (j ∈ (reconcile boxes s).1.selectedIndex ↔ j ∈ s.selectedIndex)) := by
  have hmem := fun j => reconcileLoop_mem (calculateSelectionBox ds de ds de) boxes
    s.selectedIndex s.items 0 s.selectedIndex j (Nat.zero_le j) Iff.rfl
  rw [reconcile_eq boxes s ds de h1 h2]
  refine ⟨rfl, rfl, fun j it hj => ?_, fun j hj => ?_⟩
  · have h := hmem j
    rw [Nat.sub_zero, hj] at h
    exact h
  · have h := hmem j
    rw [Nat.sub_zero] at h
    rcases hcase : s.items[j]? with _ | o
    · rw [hcase] at h
      exact h
    · rcases o with _ | it
      · rw [hcase] at h
        exact h
      · exact absurd hcase (hj it)

/-- Environment for the spec's incremental-diff example: three items with
boxes `A=[0,0,10,10]`, `B=[20,20,10,10]`, `C=[40,40,10,10]`. -/
def envDiff : Env :=
  { margin := some ⟨0, 0, 1000, 1000⟩
    boxes := fun it =>
      if it = 0 then ⟨0, 0, 10, 10⟩ else if it = 1 then ⟨20, 20, 10, 10⟩ else ⟨40, 40, 10, 10⟩ }

/-- A mid-drag state over the three example items, rectangle (0,0)-(30,30)
covering items 0 and 1 but not 2. -/
def sDragAB : HookState :=
  { dragStart := some ⟨0, 0⟩, dragEnd := some ⟨30, 30⟩, isMouseDown := true
    selectionBox := none, showSelection := true, selectedIndex := ∅
    items := [some 0, some 1, some 2] }

theorem c1_reconciler_minimal_diff_witness :
    (reconcile envDiff.boxes sDragAB).2 = some (reconcile envDiff.boxes sDragAB).1.selectedIndex ∧
    0 ∈ (reconcile envDiff.boxes sDragAB).1.selectedIndex ∧
    1 ∈ (reconcile envDiff.boxes sDragAB).1.selectedIndex ∧
    2 ∉ (reconcile envDiff.boxes sDragAB).1.selectedIndex := by
  have h := c1_reconciler_minimal_diff envDiff.boxes sDragAB ⟨0, 0⟩ ⟨30, 30⟩ rfl rfl
  refine ⟨h.1, (h.2.2.1 0 0 rfl).mpr (by decide), (h.2.2.1 1 1 rfl).mpr (by decide),
    fun hmem => absurd ((h.2.2.1 2 2 rfl).mp hmem) (by decide)⟩

/-- C7: registration is idempotent — a null handle or an already-present
item leaves the registry unchanged (contents and order), a new item is
appended at the end (so registration order gives index identity), and
registering the same item twice from empty yields a registry of size 1. -/
theorem c7_register_idempotent (items : List (Option Item)) (it : Item) :
    (addItem items none = items) ∧
    ((some it) ∈ items → addItem items (some it) = items) ∧
    ((some it) ∉ items → addItem items (some it) = items ++ [some it]) ∧
    (addItem (addItem [] (some it)) (some it)).length = 1 := by
  refine ⟨rfl, fun h => ?_, fun h => ?_, ?_⟩
  · simp [addItem, h]
  · simp [addItem, h]
  · simp [addItem]

theorem c7_register_idempotent_witness :
    addItem [some 7] (some 7) = [some 7] ∧
    addItem [] (some 7) = [some 7] ∧
    (addItem (addItem [] (some 7)) (some 7)).length = 1 := by
  have h := c7_register_idempotent [some 7] 7
  have h0 := c7_register_idempotent [] 7
  exact ⟨h.2.1 (by decide), by simpa using h0.2.2.1 (by decide), h0.2.2.2⟩

/-- C8: `calculateSelectionBox`, invoked as at its sole call site (the
closure-captured `dragStart`/`dragEnd` equal the parameters), returns
`{min x, min y, |dx|, |dy|}`; its width and height are non-negative and it
is symmetric in its two points. -/
theorem c8_rectangle_normalized (a b : Point) :
    calculateSelectionBox a b a b =
      { left := min a.x b.x, top := min a.y b.y, width := |a.x - b.x|, height := |a.y - b.y| } ∧
    0 ≤ (calculateSelectionBox a b a b).width ∧
    0 ≤ (calculateSelectionBox a b a b).height ∧
    calculateSelectionBox a b a b = calculateSelectionBox b a b a := by
  refine ⟨rfl, abs_nonneg _, abs_nonneg _, ?_⟩
  simp [calculateSelectionBox, min_comm, abs_sub_comm]

lemma interval_overlap {a b c d : Int} (hab : a ≤ b) (hcd : c ≤ d) :
    (a ≤ d ∧ c ≤ b) ↔ ∃ x : Int, a ≤ x ∧ x ≤ b ∧ c ≤ x ∧ x ≤ d := by
  constructor
  · rintro ⟨h1, h2⟩
    exact ⟨max a c, le_max_left a c, max_le hab h2, le_max_right a c, max_le h1 hcd⟩
  · rintro ⟨x, hx1, hx2, hx3, hx4⟩
    exact ⟨hx1.trans hx4, hx3.trans hx2⟩

/-- C9: the intersection test is inclusive — the concrete touching-edge
pair from the spec is reported as intersecting — and, for rectangles with
non-negative extents (including degenerate zero-area ones), it returns
`true` exactly when the two closed rectangles share a point, so disjoint
rectangles are never reported. -/
theorem c9_touching_edge_inclusive :
    boxesIntersect ⟨0, 0, 10, 10⟩ ⟨10, 0, 10, 10⟩ = true ∧
    ∀ r1 r2 : Rect, 0 ≤ r1.width → 0 ≤ r1.height → 0 ≤ r2.width → 0 ≤ r2.height →
      (boxesIntersect r1 r2 = true ↔ ∃ x y : Int, inClosedRect r1 x y ∧ inClosedRect r2 x y) := by
  refine ⟨by decide, ?_⟩
  intro r1 r2 hw1 hh1 hw2 hh2
  unfold boxesIntersect
  rw [decide_eq_true_eq]
  constructor
  · rintro ⟨ha, hb, hc, hd⟩
    obtain ⟨x, hx1, hx2, hx3, hx4⟩ :=
      (interval_overlap (le_add_of_nonneg_right hw1) (le_add_of_nonneg_right hw2)).mp ⟨ha, hb⟩
    obtain ⟨y, hy1, hy2, hy3, hy4⟩ :=
      (interval_overlap (le_add_of_nonneg_right hh1) (le_add_of_nonneg_right hh2)).mp ⟨hc, hd⟩
    exact ⟨x, y, ⟨hx1, hx2, hy1, hy2⟩, ⟨hx3, hx4, hy3, hy4⟩⟩
  · rintro ⟨x, y, ⟨hx1, hx2, hy1, hy2⟩, ⟨hx3, hx4, hy3, hy4⟩⟩
    exact ⟨hx1.trans hx4, hx3.trans hx2, hy1.trans hy4, hy3.trans hy2⟩

theorem c9_touching_edge_inclusive_witness :
    boxesIntersect ⟨0, 0, 0, 0⟩ ⟨0, 0, 10, 10⟩ = true :=
  (c9_touching_edge_inclusive.2 ⟨0, 0, 0, 0⟩ ⟨0, 0, 10, 10⟩ (by decide) (by decide)
    (by decide) (by decide)).mpr ⟨0, 0, by decide, by decide⟩

/-! Shape lemmas for `step`. -/

lemma step_up_eq (env : Env) (s : HookState) :
    step env .up s = .ok (upFields s, none) := by
  cases h : upChanged s <;> simp [step, handle, h, reconcile, upFields]

lemma step_down_eq (env : Env) (m : Margin) (p : Point) (s : HookState)
    (hm : env.margin = some m) :
    step env (.down p) s =
      if isValidStart p m then
        .ok (({ s with
          dragStart := some p
          dragEnd := none
          selectedIndex := ∅
          showSelection := true
          isMouseDown := true } : HookState), none)
      else .ok (s, none) := by
  by_cases hv : isValidStart p m <;> simp [step, handle, hm, hv, reconcile]

lemma step_down_nomargin (env : Env) (p : Point) (s : HookState) (hm : env.margin = none) :
    step env (.down p) s = .error .typeError := by
  simp [step, handle, hm]

lemma step_move_idle (env : Env) (p : Point) (b : Nat) (s : HookState)
    (h : s.isMouseDown = false) :
    step env (.move p b) s = .ok (s, none) := by
  simp [step, handle, h]

lemma step_move_buttonloss (env : Env) (p : Point) (s : HookState)
    (hd : s.isMouseDown = true) :
    step env (.move p 0) s = step env .up s := by
  simp [step, handle, hd]

/-- The end point a dragging move produces, in the axis-wise form the spec
describes: each axis takes the raw event coordinate when the raw point is
within both of that axis's bounds, else the seed `jsOrFalsy prev raw`. -/
def clampedEnd (m : Margin) (prev : Option Point) (p : Point) : Point :=
  ⟨if ((isWithinTarget p.x p.y m).left && (isWithinTarget p.x p.y m).right) = true
      then p.x else jsOrFalsy (prev.map Point.x) p.x,
    if ((isWithinTarget p.x p.y m).top && (isWithinTarget p.x p.y m).bottom) = true
      then p.y else jsOrFalsy (prev.map Point.y) p.y⟩

lemma handle_move_drag (env : Env) (m : Margin) (p : Point) (b : Nat) (s : HookState)
    (hm : env.margin = some m) (hd : s.isMouseDown = true) (hb : b ≠ 0) :
    handle env (.move p b) s =
      .ok ({ s with dragEnd := some (clampedEnd m s.dragEnd p) }, true) := by
  simp [handle, hm, hd, hb, clampedEnd]

lemma step_move_drag (env : Env) (m : Margin) (p : Point) (b : Nat) (s : HookState)
    (hm : env.margin = some m) (hd : s.isMouseDown = true) (hb : b ≠ 0) :
    step env (.move p b) s =
      .ok (reconcile env.boxes { s with dragEnd := some (clampedEnd m s.dragEnd p) }) := by
  simp only [step, handle_move_drag env m p b s hm hd hb]
  rfl

lemma step_add_eq (env : Env) (item : Option Item) (s : HookState) :
    step env (.add item) s = .ok ({ s with items := addItem s.items item }, none) := by
  simp [step, handle]

/-! Claims C2, C3, C5 and C6. -/

/-- C2 (amended): for a pointer-move while Dragging with buttons pressed
and a measurable target, the new end point is computed per axis: the axis
takes the raw event coordinate when the raw point is within both of that
axis's margin bounds, and otherwise the previous end's coordinate — except
that an absent previous end **or a previous-end coordinate equal to 0
(JavaScript falsy)** falls back to the raw event coordinate. -/
theorem c2_move_end_clamping (env : Env) (m : Margin) (s : HookState) (p : Point) (b : Nat)
    (hm : env.margin = some m) (hd : s.isMouseDown = true) (hb : b ≠ 0) :
    handle env (.move p b) s =
      .ok ({ s with dragEnd := some (clampedEnd m s.dragEnd p) }, true) ∧
    clampedEnd m s.dragEnd p =
      ⟨if ((isWithinTarget p.x p.y m).left && (isWithinTarget p.x p.y m).right) = true
          then p.x else jsOrFalsy (s.dragEnd.map Point.x) p.x,
        if ((isWithinTarget p.x p.y m).top && (isWithinTarget p.x p.y m).bottom) = true
          then p.y else jsOrFalsy (s.dragEnd.map Point.y) p.y⟩ :=
  ⟨handle_move_drag env m p b s hm hd hb, rfl⟩

/-- Margin `{left:0, top:0, right:100, bottom:100}` from the spec's
independent-axis clamping example. -/
def envClamp : Env :=
  { margin := some ⟨0, 0, 100, 100⟩, boxes := fun _ => ⟨0, 0, 0, 0⟩ }

/-- Mid-drag state whose previous end has x-coordinate 0 (JS falsy). -/
def sEndZero : HookState :=
  { initState with isMouseDown := true, dragStart := some ⟨50, 50⟩, dragEnd := some ⟨0, 50⟩ }

theorem c2_move_end_clamping_counterexample :
    handle envClamp (.move ⟨150, 50⟩ 1) sEndZero =
      .ok ({ sEndZero with dragEnd := some ⟨150, 50⟩ }, true) ∧
    ¬(handle envClamp (.move ⟨150, 50⟩ 1) sEndZero =
      .ok ({ sEndZero with dragEnd := some ⟨0, 50⟩ }, true)) := by
  exact ⟨by decide, by decide⟩

/-- Mid-drag state whose previous end froze at the last in-bounds x = 90. -/
def sEndNinety : HookState :=
  { initState with isMouseDown := true, dragStart := some ⟨50, 50⟩, dragEnd := some ⟨90, 50⟩ }

theorem c2_move_end_clamping_witness :
    handle envClamp (.move ⟨150, 50⟩ 1) sEndNinety =
      .ok ({ sEndNinety with dragEnd := some ⟨90, 50⟩ }, true) := by
  have h := (c2_move_end_clamping envClamp ⟨0, 0, 100, 100⟩ sEndNinety ⟨150, 50⟩ 1 rfl rfl
    (by decide)).1
  exact h.trans (by decide)

/-- C3 (amended): when the Boundary Resolver yields no margin, a
pointer-down is not a silent no-op: evaluating the bounds test dereferences
the absent margin and raises a `TypeError`.  The failure occurs before any
state write, so no drag starts and no state changes — but a failure *is*
raised. -/
theorem c3_absent_margin_down_raises (env : Env) (p : Point) (s : HookState)
    (hm : env.margin = none) :
    step env (.down p) s = .error .typeError :=
  step_down_nomargin env p s hm

/-- An environment whose target is not measurable. -/
def envNone : Env := { margin := none, boxes := fun _ => ⟨0, 0, 0, 0⟩ }

theorem c3_absent_margin_counterexample :
    ¬(step envNone (.down ⟨0, 0⟩) initState = .ok (initState, none)) := by
  decide

theorem c3_absent_margin_down_raises_witness :
    step envNone (.down ⟨0, 0⟩) initState = .error .typeError :=
  c3_absent_margin_down_raises envNone ⟨0, 0⟩ initState rfl

/-- C5: a pointer-down at a point not fully inside the margin changes
nothing (no state change, no notification); at a point inside all four
bounds it transitions to Dragging with the Selected Set cleared,
`start = p` and `end` absent. -/
theorem c5_down_guard (env : Env) (m : Margin) (p : Point) (s : HookState)
    (hm : env.margin = some m) :
    (isValidStart p m = false → step env (.down p) s = .ok (s, none)) ∧
    (isValidStart p m = true →
      step env (.down p) s =
        .ok (({ s with
          dragStart := some p
          dragEnd := none
          selectedIndex := ∅
          showSelection := true
          isMouseDown := true } : HookState), none)) := by
  rw [step_down_eq env m p s hm]
  constructor
  · intro hv; rw [hv]; rfl
  · intro hv; rw [hv]; rfl

theorem c5_down_guard_witness :
    step envDiff (.down ⟨2000, 50⟩) initState = .ok (initState, none) ∧
    step envDiff (.down ⟨50, 50⟩) initState =
      .ok (({ initState with
        dragStart := some ⟨50, 50⟩
        dragEnd := none
        selectedIndex := ∅
        showSelection := true
        isMouseDown := true } : HookState), none) :=
  ⟨(c5_down_guard envDiff ⟨0, 0, 1000, 1000⟩ ⟨2000, 50⟩ initState rfl).1 (by decide),
   (c5_down_guard envDiff ⟨0, 0, 1000, 1000⟩ ⟨50, 50⟩ initState rfl).2 (by decide)⟩

/-- C6: pointer-up always yields the fully reset state (Selected Set ∅,
drag inactive, box hidden, rectangle cleared, both endpoints cleared,
registry kept), whatever the prior state; and a move event reporting no
pressed buttons while Dragging produces exactly the same outcome as an
explicit pointer-up. -/
theorem c6_full_reset (env : Env) (s : HookState) (p : Point) :
    (step env .up s = .ok (upFields s, none) ∧
      (upFields s).selectedIndex = ∅ ∧ (upFields s).isMouseDown = false ∧
      (upFields s).showSelection = false ∧ (upFields s).selectionBox = none ∧
      (upFields s).dragStart = none ∧ (upFields s).dragEnd = none ∧
      (upFields s).items = s.items) ∧
    (s.isMouseDown = true → step env (.move p 0) s = step env .up s) := by
  exact ⟨⟨step_up_eq env s, rfl, rfl, rfl, rfl, rfl, rfl, rfl⟩,
    fun hd => step_move_buttonloss env p s hd⟩

/-- A mid-drag state with a non-empty selection. -/
def sDragging : HookState :=
  { dragStart := some ⟨5, 5⟩, dragEnd := some ⟨9, 9⟩, isMouseDown := true
    selectionBox := some ⟨5, 5, 4, 4⟩, showSelection := true, selectedIndex := {0}
    items := [some 0] }

theorem c6_full_reset_witness :
    step envDiff (.move ⟨7, 7⟩ 0) sDragging = step envDiff .up sDragging ∧
    step envDiff .up sDragging = .ok (upFields sDragging, none) ∧
    (upFields sDragging).selectedIndex = ∅ :=
  ⟨(c6_full_reset envDiff sDragging ⟨7, 7⟩).2 rfl,
   (c6_full_reset envDiff sDragging ⟨7, 7⟩).1.1,
   (c6_full_reset envDiff sDragging ⟨7, 7⟩).1.2.1⟩

/-! Reachability invariants for C4 and C10. -/

lemma addItem_length_le (items : List (Option Item)) (item : Option Item) :
    items.length ≤ (addItem items item).length := by
  cases item with
  | none => exact le_refl _
  | some v =>
    by_cases hmem : (some v : Option Item) ∈ items
    · simp [addItem, hmem]
    · simp [addItem, hmem]

/-- Every selected index is a valid registry index. -/
def selInRange (s : HookState) : Prop := ∀ i ∈ s.selectedIndex, i < s.items.length

lemma reconcile_selInRange (boxes : Item → Rect) (s : HookState) (h : selInRange s) :
    selInRange (reconcile boxes s).1 := by
  rcases h1 : s.dragStart with _ | ds
  · simp only [reconcile, h1]; exact h
  · rcases h2 : s.dragEnd with _ | de
    · simp only [reconcile, h1, h2]; exact h
    · intro i hi
      rw [reconcile_eq boxes s ds de h1 h2] at hi ⊢
      have hm := reconcileLoop_mem (calculateSelectionBox ds de ds de) boxes
        s.selectedIndex s.items 0 s.selectedIndex i (Nat.zero_le i) Iff.rfl
      rw [Nat.sub_zero] at hm
      have hmem := hm.mp hi
      rcases hcase : s.items[i]? with _ | o
      · rw [hcase] at hmem
        exact h i hmem
      · by_contra hge
        push_neg at hge
        rw [List.getElem?_eq_none hge] at hcase
        exact Option.noConfusion hcase

lemma step_selInRange (env : Env) (e : Event) (s s' : HookState) (out : Option (Finset Nat))
    (hstep : step env e s = .ok (s', out)) (h : selInRange s) : selInRange s' := by
  cases e with
  | down p =>
    rcases hm : env.margin with _ | m
    · rw [step_down_nomargin env p s hm] at hstep
      exact absurd hstep (by simp)
    · rw [step_down_eq env m p s hm] at hstep
      by_cases hv : isValidStart p m
      · rw [if_pos hv] at hstep
        injection hstep with hp
        injection hp with hs ho
        subst hs
        intro i hi
        exact absurd hi (Finset.not_mem_empty i)
      · rw [if_neg hv] at hstep
        injection hstep with hp
        injection hp with hs ho
        subst hs
        exact h
  | move p b =>
    by_cases hd : s.isMouseDown = false
    · rw [step_move_idle env p b s hd] at hstep
      injection hstep with hp
      injection hp with hs ho
      subst hs
      exact h
    · have hd' : s.isMouseDown = true := by revert hd; cases s.isMouseDown <;> simp
      by_cases hb : b = 0
      · subst hb
        rw [step_move_buttonloss env p s hd', step_up_eq env s] at hstep
        injection hstep with hp
        injection hp with hs ho
        subst hs
        intro i hi
        exact absurd hi (Finset.not_mem_empty i)
      · rcases hm : env.margin with _ | m
        · have herr : step env (.move p b) s = .error .typeError := by
            simp [step, handle, hd', hb, hm]
          rw [herr] at hstep
          exact absurd hstep (by simp)
        · rw [step_move_drag env m p b s hm hd' hb] at hstep
          injection hstep with hp
          have hs : (reconcile env.boxes
              { s with dragEnd := some (clampedEnd m s.dragEnd p) }).1 = s' :=
            congrArg Prod.fst hp
          subst hs
          exact reconcile_selInRange env.boxes _ (fun i hi => h i hi)
  | up =>
    rw [step_up_eq env s] at hstep
    injection hstep with hp
    injection hp with hs ho
    subst hs
    intro i hi
    exact absurd hi (Finset.not_mem_empty i)
  | add item =>
    rw [step_add_eq env item s] at hstep
    injection hstep with hp
    injection hp with hs ho
    subst hs
    intro i hi
    exact lt_of_lt_of_le (h i hi) (addItem_length_le s.items item)

lemma reachable_selInRange (s : HookState) (h : Reachable s) : selInRange s := by
  induction h with
  | init => intro i hi; exact absurd hi (Finset.not_mem_empty i)
  | step env e s1 s2 out hr hstep ih => exact step_selInRange env e s1 s2 out hstep ih

/-- C10: in every reachable state, every element of the Selected Set is a
valid index into the Item Registry. -/
theorem c10_selected_in_registry (s : HookState) (h : Reachable s) :
    ∀ i ∈ s.selectedIndex, i < s.items.length :=
  reachable_selInRange s h

/-- A reachable mid-drag state: three items registered, a valid press at
(5,5) and a move to (30,30) selecting items 0 and 1. -/
def sStar : HookState :=
  { dragStart := some ⟨5, 5⟩, dragEnd := some ⟨30, 30⟩, isMouseDown := true
    selectionBox := some ⟨5, 5, 25, 25⟩, showSelection := true
    selectedIndex := insert 1 (insert 0 ∅)
    items := [some 0, some 1, some 2] }

lemma reachable_sStar : Reachable sStar := by
  have h1 : Reachable ({ initState with items := [some 0] }) :=
    Reachable.step envDiff (.add (some 0)) initState _ none Reachable.init (by decide)
  have h2 : Reachable ({ initState with items := [some 0, some 1] }) :=
    Reachable.step envDiff (.add (some 1)) _ _ none h1 (by decide)
  have h3 : Reachable ({ initState with items := [some 0, some 1, some 2] }) :=
    Reachable.step envDiff (.add (some 2)) _ _ none h2 (by decide)
  have h4 : Reachable ({ initState with
      items := [some 0, some 1, some 2]
      dragStart := some ⟨5, 5⟩
      showSelection := true
      isMouseDown := true }) :=
    Reachable.step envDiff (.down ⟨5, 5⟩) _ _ none h3 (by decide)
  exact Reachable.step envDiff (.move ⟨30, 30⟩ 1) _ _ (some (insert 1 (insert 0 ∅))) h4
    (by decide)

theorem c10_selected_in_registry_witness :
    (0 ∈ sStar.selectedIndex) ∧ 0 < sStar.items.length :=
  ⟨by decide, c10_selected_in_registry sStar reachable_sStar 0 (by decide)⟩

/-- All drag-related fields are cleared whenever the machine is Idle. -/
def idleCleared (s : HookState) : Prop :=
  s.isMouseDown = false →
    s.dragStart = none ∧ s.dragEnd = none ∧ s.selectedIndex = ∅ ∧
    s.showSelection = false ∧ s.selectionBox = none

lemma step_idleCleared (env : Env) (e : Event) (s s' : HookState) (out : Option (Finset Nat))
    (hstep : step env e s = .ok (s', out)) (h : idleCleared s) : idleCleared s' := by
  cases e with
  | down p =>
    rcases hm : env.margin with _ | m
    · rw [step_down_nomargin env p s hm] at hstep
      exact absurd hstep (by simp)
    · rw [step_down_eq env m p s hm] at hstep
      by_cases hv : isValidStart p m
      · rw [if_pos hv] at hstep
        injection hstep with hp
        injection hp with hs ho
        subst hs
        intro hmd
        exact Bool.noConfusion hmd
      · rw [if_neg hv] at hstep
        injection hstep with hp
        injection hp with hs ho
        subst hs
        exact h
  | move p b =>
    by_cases hd : s.isMouseDown = false
    · rw [step_move_idle env p b s hd] at hstep
      injection hstep with hp
      injection hp with hs ho
      subst hs
      exact h
    · have hd' : s.isMouseDown = true := by revert hd; cases s.isMouseDown <;> simp
      by_cases hb : b = 0
      · subst hb
        rw [step_move_buttonloss env p s hd', step_up_eq env s] at hstep
        injection hstep with hp
        injection hp with hs ho
        subst hs
        intro _
        exact ⟨rfl, rfl, rfl, rfl, rfl⟩
      · rcases hm : env.margin with _ | m
        · have herr : step env (.move p b) s = .error .typeError := by
            simp [step, handle, hd', hb, hm]
          rw [herr] at hstep
          exact absurd hstep (by simp)
        · rw [step_move_drag env m p b s hm hd' hb] at hstep
          injection hstep with hp
          have hs : (reconcile env.boxes
              { s with dragEnd := some (clampedEnd m s.dragEnd p) }).1 = s' :=
            congrArg Prod.fst hp
          subst hs
          intro hmd
          have hpre := (reconcile_preserves env.boxes
            { s with dragEnd := some (clampedEnd m s.dragEnd p) }).1
          rw [hpre] at hmd
          exact Bool.noConfusion (hd'.symm.trans hmd)
  | up =>
    rw [step_up_eq env s] at hstep
    injection hstep with hp
    injection hp with hs ho
    subst hs
    intro _
    exact ⟨rfl, rfl, rfl, rfl, rfl⟩
  | add item =>
    rw [step_add_eq env item s] at hstep
    injection hstep with hp
    injection hp with hs ho
    subst hs
    intro hmd
    exact h hmd

lemma reachable_idleCleared (s : HookState) (h : Reachable s) : idleCleared s := by
  induction h with
  | init => intro _; exact ⟨rfl, rfl, rfl, rfl, rfl⟩
  | step env e s1 s2 out hr hstep ih => exact step_idleCleared env e s1 s2 out hstep ih

lemma upFields_self (s : HookState) (hmd : s.isMouseDown = false) (h1 : s.dragStart = none)
    (h2 : s.dragEnd = none) (h3 : s.selectedIndex = ∅) (h4 : s.showSelection = false)
    (h5 : s.selectionBox = none) : upFields s = s := by
  cases s
  simp_all [upFields]

/-- C4: pointer-move and pointer-up events received while Idle are ignored
silently — the entire state (drag endpoints, Selected Set, drag-box
visibility, selection rectangle) is unchanged, no notification is emitted
and no error is raised.  Moves are no-ops in *any* Idle state; ups in any
*reachable* Idle state (where the drag fields are already cleared, so the
handler's unconditional clearing writes change nothing). -/
theorem c4_idle_events_ignored :
    (∀ (env : Env) (s : HookState) (p : Point) (b : Nat), s.isMouseDown = false →
      step env (.move p b) s = .ok (s, none)) ∧
    (∀ (env : Env) (s : HookState), Reachable s → s.isMouseDown = false →
      step env .up s = .ok (s, none)) := by
  constructor
  · exact fun env s p b hmd => step_move_idle env p b s hmd
  · intro env s hr hmd
    obtain ⟨h1, h2, h3, h4, h5⟩ := reachable_idleCleared s hr hmd
    rw [step_up_eq env s, upFields_self s hmd h1 h2 h3 h4 h5]

theorem c4_idle_events_ignored_witness :
    step envNone (.move ⟨1, 2⟩ 5) initState = .ok (initState, none) ∧
    step envNone .up initState = .ok (initState, none) :=
  ⟨c4_idle_events_ignored.1 envNone initState ⟨1, 2⟩ 5 rfl,
   c4_idle_events_ignored.2 envNone initState Reachable.init rfl⟩
